import Mathlib

/-!
# Verification of the functional-diagrams graph editor core

A shallow embedding of the graph state core of the node-graph editor
(`src/App.tsx`, `src/components/NodeComponent.tsx`): the node/edge data
model, the mutation operations, the two undo/redo timelines and the
application-level undo/redo that steps them in lockstep, and the
document codec, together with theorems settling the specified
properties.
-/

set_option autoImplicit false

namespace FDiag

/-! ### Decimal rendering of numbers

JavaScript template literals such as `` `node_${+new Date()}` `` and
`` `input-${inputs.length}` `` render a natural number in decimal.  We
model that rendering with a fuel-based (hence kernel-reducible)
function and prove it injective via an explicit left inverse. -/

/-- The decimal digit character for `d` (meaningful for `d < 10`). -/
def digitChar (d : Nat) : Char := Char.ofNat (48 + d)

/-- Decimal digits of `n`, least significant first, with explicit fuel. -/
def toDigitsRev : Nat → Nat → List Nat
  | 0, _ => []
  | fuel + 1, n => if n = 0 then [] else n % 10 :: toDigitsRev fuel (n / 10)

/-- Reassemble a number from its least-significant-first digits. -/
def ofDigitsRev : List Nat → Nat
  | [] => 0
  | d :: ds => d + 10 * ofDigitsRev ds

/-- Decimal rendering of a natural number, as a JS template literal does. -/
def natToString (n : Nat) : String :=
  if n = 0 then ("0") else String.mk (((toDigitsRev n n).map digitChar).reverse)

theorem ofDigitsRev_toDigitsRev (fuel : Nat) :
    ∀ n : Nat, n ≤ fuel → ofDigitsRev (toDigitsRev fuel n) = n := by
  induction fuel with
  | zero =>
    intro n hn
    have : n = 0 := Nat.le_zero.mp hn
    subst this
    rfl
  | succ k ih =>
    intro n hn
    by_cases h0 : n = 0
    · subst h0; simp [toDigitsRev, ofDigitsRev]
    · have hdiv : n / 10 ≤ k := by
        have hlt : n / 10 < n := Nat.div_lt_self (Nat.pos_of_ne_zero h0) (by norm_num)
        omega
      simp only [toDigitsRev, h0, if_false, ofDigitsRev]
      rw [ih (n / 10) hdiv]
      omega

/-- Digit of a decimal character (left inverse of `digitChar` below 10). -/
def charToDigit (c : Char) : Nat := c.toNat - 48

theorem charToDigit_digitChar : ∀ d : Nat, d < 10 → charToDigit (digitChar d) = d := by
  decide

theorem toDigitsRev_lt (fuel : Nat) :
    ∀ n d : Nat, d ∈ toDigitsRev fuel n → d < 10 := by
  induction fuel with
  | zero => intro n d hd; simp [toDigitsRev] at hd
  | succ k ih =>
    intro n d hd
    by_cases h0 : n = 0
    · subst h0; simp [toDigitsRev] at hd
    · simp only [toDigitsRev, h0, if_false, List.mem_cons] at hd
      rcases hd with h | h
      · subst h; exact Nat.mod_lt _ (by norm_num)
      · exact ih _ _ h

/-- Explicit left inverse of `natToString`. -/
def stringToNatInv (s : String) : Nat :=
  ofDigitsRev (s.data.reverse.map charToDigit)

theorem stringToNatInv_natToString (n : Nat) : stringToNatInv (natToString n) = n := by
  by_cases h0 : n = 0
  · subst h0; rfl
  · simp only [natToString, h0, if_false, stringToNatInv]
    rw [List.reverse_reverse, List.map_map]
    have hmap : (toDigitsRev n n).map (charToDigit ∘ digitChar) = toDigitsRev n n := by
      have := List.map_congr_left (l := toDigitsRev n n)
        (f := charToDigit ∘ digitChar) (g := id)
        (fun d hd => charToDigit_digitChar d (toDigitsRev_lt n n d hd))
      simpa using this
    rw [hmap]
    exact ofDigitsRev_toDigitsRev n n le_rfl

theorem natToString_injective : Function.Injective natToString := by
  intro a b h
  have := congrArg stringToNatInv h
  rwa [stringToNatInv_natToString, stringToNatInv_natToString] at this

theorem string_data_append (s t : String) : (s ++ t).data = s.data ++ t.data := rfl

theorem string_append_cancel_left {s a b : String} (h : s ++ a = s ++ b) : a = b := by
  have hd : (s ++ a).data = (s ++ b).data := congrArg String.data h
  rw [string_data_append, string_data_append] at hd
  have hab : a.data = b.data := List.append_cancel_left hd
  cases a
  cases b
  exact congrArg String.mk hab

theorem append_natToString_injective (pre : String) {a b : Nat}
    (h : pre ++ natToString a = pre ++ natToString b) : a = b :=
  natToString_injective (string_append_cancel_left h)

/-! ### Data model

Translated from the object literals in `src/App.tsx` and
`src/components/NodeComponent.tsx`.  Ports are `{id, name}` pairs; a
node carries its react-flow `id`, `type`, `data` record and position;
an edge carries the connection endpoints, the line style and the
`selectable` flag set by `onConnect`. -/

structure Port where
  id : String
  name : String
deriving DecidableEq

structure Position where
  x : Int
  y : Int
deriving DecidableEq

structure NodeData where
  label : String
  description : String
  inputs : List Port
  outputs : List Port
  color : String
deriving DecidableEq

structure Node where
  id : String
  type : String
  data : NodeData
  position : Position
deriving DecidableEq

inductive LineStyle where
  | step
  | bezier
  | smoothstep
  | straight
deriving DecidableEq

structure Edge where
  id : String
  source : String
  sourceHandle : String
  target : String
  targetHandle : String
  type : LineStyle
  selectable : Bool
deriving DecidableEq

/-- The endpoints of a connect gesture, as react-flow hands them to `onConnect`. -/
structure Connection where
  source : String
  sourceHandle : String
  target : String
  targetHandle : String
deriving DecidableEq

/-- The unit of save/load: `{ nodes, edges }` as built by `onSave`. -/
structure Document where
  nodes : List Node
  edges : List Edge
deriving DecidableEq

/-! ### History timelines

Modelled from the spec: the `use-undo` library that backs
`useUndo<Node[]>` / `useUndo<Edge[]>` in `src/App.tsx` is not part of
this repository; its timeline operations are modelled from the
description in the spec: `set` pushes the current `present` onto `past`, installs
the new snapshot as `present` and clears `future`; `undo` is a no-op
on an empty `past` and otherwise pops the last element of `past` into
`present`, pushing the old `present` onto the front of `future`;
`redo` is symmetric. -/

structure Timeline (α : Type) where
  past : List α
  present : α
  future : List α
deriving DecidableEq

/-- Modelled from the spec: `set(timeline, snap)` pushes `present` onto
`past`, installs `snap`, clears `future`. -/
def Timeline.set {α : Type} (t : Timeline α) (snap : α) : Timeline α :=
  { past := t.past ++ [t.present], present := snap, future := [] }

/-- Modelled from the spec: `undo(timeline)` is a no-op if `past` is
empty, else pops the last of `past` into `present`, pushing the old
`present` onto the front of `future`. -/
def Timeline.undo {α : Type} (t : Timeline α) : Timeline α :=
  match t.past.getLast? with
  | none => t
  | some prev =>
    { past := t.past.dropLast, present := prev, future := t.present :: t.future }

/-- Modelled from the spec: `redo(timeline)` is symmetric to `undo`,
a no-op if `future` is empty. -/
def Timeline.redo {α : Type} (t : Timeline α) : Timeline α :=
  match t.future with
  | [] => t
  | next :: rest =>
    { past := t.past ++ [t.present], present := next, future := rest }

theorem Timeline.undo_set {α : Type} (t : Timeline α) (s : α) :
    (t.set s).undo = { past := t.past, present := t.present, future := [s] } := by
  simp [Timeline.set, Timeline.undo, List.getLast?_concat, List.dropLast_concat]

/-- Applying a list of snapshots to a timeline via `set`, first element first. -/
def setChain {α : Type} : Timeline α → List α → Timeline α
  | t, [] => t
  | t, s :: ss => setChain (t.set s) ss

def undoIter {α : Type} : Nat → Timeline α → Timeline α
  | 0, t => t
  | k + 1, t => undoIter k t.undo

def redoIter {α : Type} : Nat → Timeline α → Timeline α
  | 0, t => t
  | k + 1, t => redoIter k t.redo

theorem undoIter_succ {α : Type} (k : Nat) (t : Timeline α) :
    undoIter (k + 1) t = (undoIter k t).undo := by
  induction k generalizing t with
  | zero => rfl
  | succ m ih =>
    show undoIter (m + 1) t.undo = (undoIter (m + 1) t).undo
    rw [ih, undoIter]

theorem undoIter_setChain {α : Type} :
    ∀ (ss : List α) (t : Timeline α), ss ≠ [] →
      undoIter ss.length (setChain t ss)
        = { past := t.past, present := t.present, future := ss } := by
  intro ss
  induction ss with
  | nil => intro t h; exact absurd rfl h
  | cons s ss ih =>
    intro t _
    by_cases hss : ss = []
    · subst hss
      show undoIter 1 (setChain (t.set s) []) = _
      rw [show setChain (t.set s) [] = t.set s from rfl]
      show (t.set s).undo = _
      exact Timeline.undo_set t s
    · show undoIter (ss.length + 1) (setChain (t.set s) ss) = _
      rw [undoIter_succ, ih (t.set s) hss]
      simp [Timeline.set, Timeline.undo, List.getLast?_concat, List.dropLast_concat]

theorem redoIter_restore {α : Type} :
    ∀ (ss pa : List α) (p : α),
      redoIter ss.length { past := pa, present := p, future := ss }
        = setChain { past := pa, present := p, future := [] } ss := by
  intro ss
  induction ss with
  | nil => intro pa p; rfl
  | cons s ss ih =>
    intro pa p
    show redoIter ss.length (Timeline.redo _) = _
    rw [show Timeline.redo { past := pa, present := p, future := s :: ss }
        = { past := pa ++ [p], present := s, future := ss } from rfl, ih]
    rfl

/-! ### Node mutation operations (`src/components/NodeComponent.tsx`) -/

/-- Source `updateNodeData` (NodeComponent.tsx:15-24): merges the given fields
into the data of the node with matching id, leaving all other nodes
untouched.  The partial object-spread update is modelled by a field
update function. -/
def updateNodeData (nodes : List Node) (nodeId : String)
    (upd : NodeData → NodeData) : List Node :=
  nodes.map fun n => if n.id = nodeId then { n with data := upd n.data } else n

/-- Source `addInput` (NodeComponent.tsx:26-31): appends
`{ id: input-<length>, name: Input <length+1> }`. -/
def addInput (inputs : List Port) : List Port :=
  inputs ++ [{ id := "input-" ++ natToString inputs.length,
               name := "Input " ++ natToString (inputs.length + 1) }]

/-- Source `addOutput` (NodeComponent.tsx:33-38). -/
def addOutput (outputs : List Port) : List Port :=
  outputs ++ [{ id := "output-" ++ natToString outputs.length,
                name := "Output " ++ natToString (outputs.length + 1) }]

/-- Source `removeInput` (NodeComponent.tsx:40-44): `filter((_, i) => i !== index)`. -/
def removeInput (inputs : List Port) (index : Nat) : List Port :=
  (inputs.enum.filter fun pr => pr.fst != index).map Prod.snd

/-- Source `removeOutput` (NodeComponent.tsx:46-50). -/
def removeOutput (outputs : List Port) (index : Nat) : List Port :=
  (outputs.enum.filter fun pr => pr.fst != index).map Prod.snd

/-- Source `renameInput` (NodeComponent.tsx:52-58): replaces only the `name`
field at `index`. -/
def renameInput (inputs : List Port) (index : Nat) (newName : String) : List Port :=
  inputs.enum.map fun pr =>
    if pr.fst = index then { pr.snd with name := newName } else pr.snd

/-- Source `deleteNode` (NodeComponent.tsx:68-70): filters the node out of the
node list; nothing else is touched. -/
def deleteNode (nodes : List Node) (nodeId : String) : List Node :=
  nodes.filter fun n => n.id != nodeId

/-! ### Application state (`src/App.tsx`)

The two `useUndo` timelines are the authoritative node/edge stores;
`rfNodes` models the internal node store of react-flow, which mirrors the
`nodes` prop (`nodesH.present`) but is written directly by
`useReactFlow().setNodes` from inside `NodeComponent`. -/

structure AppState where
  nodesH : Timeline (List Node)
  edgesH : Timeline (List Edge)
  rfNodes : List Node
  connectionLineType : LineStyle
  nextEdgeId : Nat
deriving DecidableEq

/-- Initial state: both `useUndo` hooks start from `[]` (App.tsx:29-30),
the connection line type from `step` (App.tsx:39). -/
def initialAppState : AppState :=
  { nodesH := { past := [], present := [], future := [] }
    edgesH := { past := [], present := [], future := [] }
    rfNodes := []
    connectionLineType := LineStyle.step
    nextEdgeId := 0 }

/-- Source `setNodes` (App.tsx:35): dispatches `set` on the node timeline; the
new present is mirrored into the react-flow store through the `nodes` prop. -/
def appSetNodes (st : AppState) (ns : List Node) : AppState :=
  { st with nodesH := st.nodesH.set ns, rfNodes := ns }

/-- Source `setEdges` (App.tsx:36): dispatches `set` on the edge timeline. -/
def appSetEdges (st : AppState) (es : List Edge) : AppState :=
  { st with edgesH := st.edgesH.set es }

/-- Application-level `undo` (App.tsx:134-137): calls undo on both
timelines in the same tick; the new presents flow back into react-flow. -/
def appUndo (st : AppState) : AppState :=
  { st with nodesH := st.nodesH.undo, edgesH := st.edgesH.undo,
            rfNodes := st.nodesH.undo.present }

/-- Application-level `redo` (App.tsx:139-142). -/
def appRedo (st : AppState) : AppState :=
  { st with nodesH := st.nodesH.redo, edgesH := st.edgesH.redo,
            rfNodes := st.nodesH.redo.present }

/-- The node literal built by `onAddNode` (App.tsx:76-90), with
`id = node_<timestamp>` from `+new Date()`. -/
def mkNewNode (now : Nat) : Node :=
  { id := "node_" ++ natToString now
    type := "customNode"
    data := { label := "New Node", description := "", inputs := [], outputs := [],
              color := "#ffffff" }
    position := { x := 250, y := 5 } }

/-- Source `onAddNode` (App.tsx:76-90): appends the new node to the current
present and dispatches it through `setNodes`. -/
def onAddNode (now : Nat) (st : AppState) : AppState :=
  appSetNodes st (st.nodesH.present ++ [mkNewNode now])

/-- Modelled from the spec: the react-flow `addEdge` helper used by
`onConnect` (App.tsx:64-74) is not part of this repository; per the
spec, connect creates an edge with a fresh id and performs no rejection
of duplicate or self-loop connections.  Fresh ids are modelled by the
`nextEdgeId` counter. -/
def mkEdgeModel (conn : Connection) (style : LineStyle) (fresh : Nat) : Edge :=
  { id := "edge_" ++ natToString fresh
    source := conn.source
    sourceHandle := conn.sourceHandle
    target := conn.target
    targetHandle := conn.targetHandle
    type := style
    selectable := true }

/-- Source `onConnect` (App.tsx:64-74): builds the new edge with the current
connection line type and `selectable: true`, appends it, and dispatches
the result through `setEdges`. -/
def onConnect (st : AppState) (conn : Connection) : AppState :=
  { appSetEdges st
      (st.edgesH.present ++ [mkEdgeModel conn st.connectionLineType st.nextEdgeId])
    with nextEdgeId := st.nextEdgeId + 1 }

/-! ### NodeComponent intents on the application state

All per-node mutation handlers in `NodeComponent` write through
`useReactFlow().setNodes` (NodeComponent.tsx:13), the internal store
setter of react-flow — not through the `setNodes` of `App`, so neither undo timeline
is consulted or advanced by them. -/

/-- The relabel intent (NodeComponent.tsx:109-112):
`updateNodeData({ label })` via `useReactFlow().setNodes`. -/
def relabelIntent (st : AppState) (nodeId newLabel : String) : AppState :=
  let upd := fun d => { d with label := newLabel }
  { st with rfNodes := updateNodeData st.rfNodes nodeId upd }

/-- The remove-input intent (NodeComponent.tsx:40-44, 153-154):
`updateNodeData({ inputs: newInputs })` via `useReactFlow().setNodes`;
no edge cleanup exists anywhere in the repository. -/
def removeInputIntent (st : AppState) (nodeId : String) (index : Nat) : AppState :=
  let upd := fun d => { d with inputs := removeInput d.inputs index }
  { st with rfNodes := updateNodeData st.rfNodes nodeId upd }

/-- The delete-node intent (NodeComponent.tsx:68-70, 95-96): filters the
node list via `useReactFlow().setNodes`; the edge store is not touched. -/
def deleteNodeIntent (st : AppState) (nodeId : String) : AppState :=
  { st with rfNodes := deleteNode st.rfNodes nodeId }

/-! ### Save / load (`src/App.tsx` onSave / onLoad) -/

/-- A decoded flow document: `JSON.parse` output as read by `onLoad`,
where each of the `nodes` / `edges` keys may be absent. -/
structure Flow where
  nodes : Option (List Node)
  edges : Option (List Edge)
deriving DecidableEq

/-- The success path of `onLoad` (App.tsx:113-115): `setNodes(flow.nodes
|| [])` then `setEdges(flow.edges || [])`. -/
def loadFlow (st : AppState) (flow : Flow) : AppState :=
  appSetEdges (appSetNodes st (flow.nodes.getD [])) (flow.edges.getD [])

/-- Source `onLoad` (App.tsx:111-119).  `JSON.parse` is a platform builtin, so
the parse step is an abstract function returning `none` exactly when it
would throw; the `Bool` result records whether the `Invalid JSON data`
alert fired. -/
def onLoad (parse : String → Option Flow) (flowData : String)
    (st : AppState) : AppState × Bool :=
  match parse flowData with
  | some flow => (loadFlow st flow, false)
  | none => (st, true)

/-! ### Iterated structural mutations and lockstep undo/redo -/

/-- One structural mutation touching both stores: the new node snapshot
is dispatched through `setNodes` and the new edge snapshot through
`setEdges`. -/
def appMutate (m : List Node × List Edge) (st : AppState) : AppState :=
  appSetEdges (appSetNodes st m.fst) m.snd

def applyMuts : List (List Node × List Edge) → AppState → AppState
  | [], st => st
  | m :: ms, st => applyMuts ms (appMutate m st)

def appUndoIter : Nat → AppState → AppState
  | 0, st => st
  | k + 1, st => appUndoIter k (appUndo st)

def appRedoIter : Nat → AppState → AppState
  | 0, st => st
  | k + 1, st => appRedoIter k (appRedo st)

theorem applyMuts_nodesH : ∀ (ms : List (List Node × List Edge)) (st : AppState),
    (applyMuts ms st).nodesH = setChain st.nodesH (ms.map Prod.fst) := by
  intro ms
  induction ms with
  | nil => intro st; rfl
  | cons m ms ih =>
    intro st
    show (applyMuts ms (appMutate m st)).nodesH = _
    rw [ih]
    rfl

theorem applyMuts_edgesH : ∀ (ms : List (List Node × List Edge)) (st : AppState),
    (applyMuts ms st).edgesH = setChain st.edgesH (ms.map Prod.snd) := by
  intro ms
  induction ms with
  | nil => intro st; rfl
  | cons m ms ih =>
    intro st
    show (applyMuts ms (appMutate m st)).edgesH = _
    rw [ih]
    rfl

theorem applyMuts_static : ∀ (ms : List (List Node × List Edge)) (st : AppState),
    (applyMuts ms st).connectionLineType = st.connectionLineType
      ∧ (applyMuts ms st).nextEdgeId = st.nextEdgeId := by
  intro ms
  induction ms with
  | nil => intro st; exact ⟨rfl, rfl⟩
  | cons m ms ih =>
    intro st
    exact ih (appMutate m st)

theorem applyMuts_rfNodes : ∀ (ms : List (List Node × List Edge)) (st : AppState),
    st.rfNodes = st.nodesH.present →
    (applyMuts ms st).rfNodes = (applyMuts ms st).nodesH.present := by
  intro ms
  induction ms with
  | nil => intro st h; exact h
  | cons m ms ih =>
    intro st _
    exact ih (appMutate m st) rfl

theorem appUndoIter_proj : ∀ (k : Nat) (st : AppState),
    (appUndoIter k st).nodesH = undoIter k st.nodesH
      ∧ (appUndoIter k st).edgesH = undoIter k st.edgesH
      ∧ (appUndoIter k st).connectionLineType = st.connectionLineType
      ∧ (appUndoIter k st).nextEdgeId = st.nextEdgeId := by
  intro k
  induction k with
  | zero => intro st; exact ⟨rfl, rfl, rfl, rfl⟩
  | succ m ih =>
    intro st
    exact ih (appUndo st)

theorem appRedoIter_proj : ∀ (k : Nat) (st : AppState),
    (appRedoIter k st).nodesH = redoIter k st.nodesH
      ∧ (appRedoIter k st).edgesH = redoIter k st.edgesH
      ∧ (appRedoIter k st).connectionLineType = st.connectionLineType
      ∧ (appRedoIter k st).nextEdgeId = st.nextEdgeId := by
  intro k
  induction k with
  | zero => intro st; exact ⟨rfl, rfl, rfl, rfl⟩
  | succ m ih =>
    intro st
    exact ih (appRedo st)

theorem appUndoIter_rfNodes : ∀ (k : Nat) (st : AppState),
    st.rfNodes = st.nodesH.present →
    (appUndoIter k st).rfNodes = (appUndoIter k st).nodesH.present := by
  intro k
  induction k with
  | zero => intro st h; exact h
  | succ m ih =>
    intro st _
    exact ih (appUndo st) rfl

theorem appRedoIter_rfNodes : ∀ (k : Nat) (st : AppState),
    st.rfNodes = st.nodesH.present →
    (appRedoIter k st).rfNodes = (appRedoIter k st).nodesH.present := by
  intro k
  induction k with
  | zero => intro st h; exact h
  | succ m ih =>
    intro st _
    exact ih (appRedo st) rfl

theorem AppState.ext5 (a b : AppState)
    (h1 : a.nodesH = b.nodesH) (h2 : a.edgesH = b.edgesH)
    (h3 : a.rfNodes = b.rfNodes)
    (h4 : a.connectionLineType = b.connectionLineType)
    (h5 : a.nextEdgeId = b.nextEdgeId) : a = b := by
  cases a
  cases b
  simp only at h1 h2 h3 h4 h5
  subst h1 h2 h3 h4 h5
  rfl

/-! ### Removing the port at a given index

`removeInput`/`removeOutput` drop exactly the element at `index`,
keeping all others in order; in particular removing the last element of
`l ++ [p]` gives back `l`. -/

theorem enumFrom_filter_drop_last (p : Port) :
    ∀ (l : List Port) (n m : Nat), m = n + l.length →
      ((List.enumFrom n (l ++ [p])).filter fun pr => pr.fst != m).map Prod.snd = l := by
  intro l
  induction l with
  | nil =>
    intro n m h
    have : m = n := h
    subst this
    simp [List.enumFrom, List.filter]
  | cons a l ih =>
    intro n m h
    have h2 : m = n + l.length + 1 := by
      simp only [List.length_cons] at h
      omega
    have hne : (n != m) = true := by
      simp only [bne_iff_ne, ne_eq]
      omega
    show ((List.enumFrom n ((a :: l) ++ [p])).filter fun pr => pr.fst != m).map Prod.snd
        = a :: l
    rw [show (a :: l) ++ [p] = a :: (l ++ [p]) from rfl]
    rw [show List.enumFrom n (a :: (l ++ [p]))
        = (n, a) :: List.enumFrom (n + 1) (l ++ [p]) from rfl]
    rw [List.filter_cons]
    simp only [hne, if_true]
    rw [List.map_cons]
    rw [ih (n + 1) m (by omega)]

theorem removeInput_append_last (l : List Port) (p : Port) :
    removeInput (l ++ [p]) l.length = l := by
  show ((List.enumFrom 0 (l ++ [p])).filter fun pr => pr.fst != l.length).map Prod.snd = l
  exact enumFrom_filter_drop_last p l 0 l.length (Nat.zero_add _).symm

theorem removeOutput_append_last (l : List Port) (p : Port) :
    removeOutput (l ++ [p]) l.length = l := by
  show ((List.enumFrom 0 (l ++ [p])).filter fun pr => pr.fst != l.length).map Prod.snd = l
  exact enumFrom_filter_drop_last p l 0 l.length (Nat.zero_add _).symm

/-! ### Document codec

Modelled from the spec: `JSON.stringify` / `JSON.parse` used by
`onSave` / `onLoad` are platform builtins, so the textual layer is
abstracted away and the codec is modelled as an encoding into a JSON
value tree, field for field in the order the source object literals
write them, with a decoder reading the same fields back. -/

inductive Json where
  | str : String → Json
  | num : Int → Json
  | bool : Bool → Json
  | arr : List Json → Json
  | obj : List (String × Json) → Json

/-- The textual name of a connection line type, as stored in the
`type` field of an edge. -/
def lineStyleStr : LineStyle → String
  | LineStyle.step => "step"
  | LineStyle.bezier => "bezier"
  | LineStyle.smoothstep => "smoothstep"
  | LineStyle.straight => "straight"

def strToLineStyle : String → Option LineStyle
  | "step" => some LineStyle.step
  | "bezier" => some LineStyle.bezier
  | "smoothstep" => some LineStyle.smoothstep
  | "straight" => some LineStyle.straight
  | _ => none

def encodePort (p : Port) : Json :=
  Json.obj [("id", Json.str p.id), ("name", Json.str p.name)]

def encodeNode (n : Node) : Json :=
  Json.obj [("id", Json.str n.id), ("type", Json.str n.type),
    ("data", Json.obj [("label", Json.str n.data.label),
      ("description", Json.str n.data.description),
      ("inputs", Json.arr (n.data.inputs.map encodePort)),
      ("outputs", Json.arr (n.data.outputs.map encodePort)),
      ("color", Json.str n.data.color)]),
    ("position", Json.obj [("x", Json.num n.position.x), ("y", Json.num n.position.y)])]

def encodeEdge (e : Edge) : Json :=
  Json.obj [("id", Json.str e.id), ("source", Json.str e.source),
    ("sourceHandle", Json.str e.sourceHandle), ("target", Json.str e.target),
    ("targetHandle", Json.str e.targetHandle),
    ("type", Json.str (lineStyleStr e.type)),
    ("selectable", Json.bool e.selectable)]

/-- Serialize: the JSON value of `JSON.stringify({ nodes, edges })`
(App.tsx:100-102). -/
def serializeDoc (d : Document) : Json :=
  Json.obj [("nodes", Json.arr (d.nodes.map encodeNode)),
            ("edges", Json.arr (d.edges.map encodeEdge))]

def decodePort : Json → Option Port
  | Json.obj [("id", Json.str i), ("name", Json.str nm)] =>
    some { id := i, name := nm }
  | _ => none

def decodeListWith {α : Type} (f : Json → Option α) : List Json → Option (List α)
  | [] => some []
  | j :: js =>
    match f j, decodeListWith f js with
    | some a, some rest => some (a :: rest)
    | _, _ => none

def decodeNode : Json → Option Node
  | Json.obj [("id", Json.str i), ("type", Json.str ty),
      ("data", Json.obj [("label", Json.str lb), ("description", Json.str ds),
        ("inputs", Json.arr ins), ("outputs", Json.arr outs),
        ("color", Json.str c)]),
      ("position", Json.obj [("x", Json.num px), ("y", Json.num py)])] =>
    match decodeListWith decodePort ins, decodeListWith decodePort outs with
    | some i2, some o2 =>
      some { id := i, type := ty,
             data := { label := lb, description := ds, inputs := i2,
                       outputs := o2, color := c },
             position := { x := px, y := py } }
    | _, _ => none
  | _ => none

def decodeEdge : Json → Option Edge
  | Json.obj [("id", Json.str i), ("source", Json.str s),
      ("sourceHandle", Json.str sh), ("target", Json.str tg),
      ("targetHandle", Json.str th), ("type", Json.str ty),
      ("selectable", Json.bool sel)] =>
    match strToLineStyle ty with
    | some ls =>
      some { id := i, source := s, sourceHandle := sh, target := tg,
             targetHandle := th, type := ls, selectable := sel }
    | none => none
  | _ => none

/-- Deserialize: reads back the two top-level sequences. -/
def deserializeDoc : Json → Option Document
  | Json.obj [("nodes", Json.arr ns), ("edges", Json.arr es)] =>
    match decodeListWith decodeNode ns, decodeListWith decodeEdge es with
    | some n2, some e2 => some { nodes := n2, edges := e2 }
    | _, _ => none
  | _ => none

theorem decodeListWith_map {α : Type} (f : Json → Option α) (g : α → Json)
    (h : ∀ a, f (g a) = some a) :
    ∀ l : List α, decodeListWith f (l.map g) = some l := by
  intro l
  induction l with
  | nil => rfl
  | cons a l ih =>
    show decodeListWith f (g a :: l.map g) = some (a :: l)
    rw [decodeListWith, h a, ih]

theorem decodePort_encodePort (p : Port) : decodePort (encodePort p) = some p := rfl

theorem strToLineStyle_lineStyleStr (ls : LineStyle) :
    strToLineStyle (lineStyleStr ls) = some ls := by
  cases ls <;> rfl

theorem decodeNode_encodeNode (n : Node) : decodeNode (encodeNode n) = some n := by
  show decodeNode (Json.obj [("id", Json.str n.id), ("type", Json.str n.type),
    ("data", Json.obj [("label", Json.str n.data.label),
      ("description", Json.str n.data.description),
      ("inputs", Json.arr (n.data.inputs.map encodePort)),
      ("outputs", Json.arr (n.data.outputs.map encodePort)),
      ("color", Json.str n.data.color)]),
    ("position", Json.obj [("x", Json.num n.position.x),
      ("y", Json.num n.position.y)])]) = some n
  rw [show decodeNode (Json.obj [("id", Json.str n.id), ("type", Json.str n.type),
    ("data", Json.obj [("label", Json.str n.data.label),
      ("description", Json.str n.data.description),
      ("inputs", Json.arr (n.data.inputs.map encodePort)),
      ("outputs", Json.arr (n.data.outputs.map encodePort)),
      ("color", Json.str n.data.color)]),
    ("position", Json.obj [("x", Json.num n.position.x),
      ("y", Json.num n.position.y)])])
    = (match decodeListWith decodePort (n.data.inputs.map encodePort),
             decodeListWith decodePort (n.data.outputs.map encodePort) with
       | some i2, some o2 =>
         some { id := n.id, type := n.type,
                data := { label := n.data.label, description := n.data.description,
                          inputs := i2, outputs := o2, color := n.data.color },
                position := { x := n.position.x, y := n.position.y } }
       | _, _ => none) from rfl]
  rw [decodeListWith_map decodePort encodePort decodePort_encodePort]
  rw [decodeListWith_map decodePort encodePort decodePort_encodePort]

theorem decodeEdge_encodeEdge (e : Edge) : decodeEdge (encodeEdge e) = some e := by
  show decodeEdge (Json.obj [("id", Json.str e.id), ("source", Json.str e.source),
    ("sourceHandle", Json.str e.sourceHandle), ("target", Json.str e.target),
    ("targetHandle", Json.str e.targetHandle),
    ("type", Json.str (lineStyleStr e.type)),
    ("selectable", Json.bool e.selectable)]) = some e
  rw [show decodeEdge (Json.obj [("id", Json.str e.id), ("source", Json.str e.source),
    ("sourceHandle", Json.str e.sourceHandle), ("target", Json.str e.target),
    ("targetHandle", Json.str e.targetHandle),
    ("type", Json.str (lineStyleStr e.type)),
    ("selectable", Json.bool e.selectable)])
    = (match strToLineStyle (lineStyleStr e.type) with
       | some ls =>
         some { id := e.id, source := e.source, sourceHandle := e.sourceHandle,
                target := e.target, targetHandle := e.targetHandle,
                type := ls, selectable := e.selectable }
       | none => none) from rfl]
  rw [strToLineStyle_lineStyleStr]

/-! ### Concrete example states -/

def portOut0 : Port := { id := "output-0", name := "Output 1" }

def portIn0 : Port := { id := "input-0", name := "Input 1" }

def nodeA : Node :=
  { id := "A", type := "customNode"
    data := { label := "A", description := "", inputs := [], outputs := [portOut0],
              color := "#ffffff" }
    position := { x := 0, y := 0 } }

def nodeB : Node :=
  { id := "B", type := "customNode"
    data := { label := "B", description := "", inputs := [portIn0], outputs := [],
              color := "#ffffff" }
    position := { x := 0, y := 0 } }

/-- An edge from `A.output-0` to `B.input-0`. -/
def edgeAB : Edge :=
  { id := "e1", source := "A", sourceHandle := "output-0",
    target := "B", targetHandle := "input-0",
    type := LineStyle.step, selectable := true }

/-- A document state with two connected nodes. -/
def exState : AppState :=
  { nodesH := { past := [], present := [nodeA, nodeB], future := [] }
    edgesH := { past := [], present := [edgeAB], future := [] }
    rfNodes := [nodeA, nodeB]
    connectionLineType := LineStyle.step
    nextEdgeId := 1 }

/-! ### The claims -/

/-- C1: the cascade-integrity claim fails on the code.  In a state whose
edge set contains the edge `A.output-0 → B.input-0`, the delete-node
intent removes node `A` but the edge set still contains an edge with
source `A`; the remove-input intent drops port `input-0` from node `B`
but the edge set still contains an edge targeting `(B, input-0)`.
Neither `deleteNode` nor `removeInput` performs any edge cleanup. -/
theorem c1_cascade_integrity_fails :
    (deleteNodeIntent exState ("A")).rfNodes.map Node.id = ["B"]
    ∧ (deleteNodeIntent exState ("A")).edgesH.present = [edgeAB]
    ∧ edgeAB.source = "A"
    ∧ ((removeInputIntent exState ("B") 0).rfNodes.map fun n => n.data.inputs) = [[], []]
    ∧ (removeInputIntent exState ("B") 0).edgesH.present = [edgeAB]
    ∧ edgeAB.target = "B"
    ∧ edgeAB.targetHandle = "input-0" := by
  refine ⟨?_, rfl, rfl, ?_, rfl, rfl, rfl⟩
  · decide
  · decide

/-- C2: history lockstep.  Starting from the initial empty state, `k ≥ 1`
structural mutations — each dispatching a `set` on both the node and the
edge timeline — followed by `k` application-level undos bring both
presents back to the original empty snapshots, and `k` application-level
redos afterwards restore exactly the pre-undo application state. -/
theorem c2_history_lockstep (ms : List (List Node × List Edge)) (hne : ms ≠ []) :
    (appUndoIter ms.length (applyMuts ms initialAppState)).nodesH.present = ([] : List Node)
    ∧ (appUndoIter ms.length (applyMuts ms initialAppState)).edgesH.present = ([] : List Edge)
    ∧ appRedoIter ms.length (appUndoIter ms.length (applyMuts ms initialAppState))
        = applyMuts ms initialAppState := by
  have hN : ms.map Prod.fst ≠ ([] : List (List Node)) := by
    cases ms with
    | nil => exact absurd rfl hne
    | cons m ms => simp
  have hE : ms.map Prod.snd ≠ ([] : List (List Edge)) := by
    cases ms with
    | nil => exact absurd rfl hne
    | cons m ms => simp
  have hlenN : ms.length = (ms.map Prod.fst).length := (List.length_map _ _).symm
  have hlenE : ms.length = (ms.map Prod.snd).length := (List.length_map _ _).symm
  have hundoN : (appUndoIter ms.length (applyMuts ms initialAppState)).nodesH
      = { past := [], present := [], future := ms.map Prod.fst } := by
    rw [(appUndoIter_proj ms.length _).1, applyMuts_nodesH, hlenN]
    exact undoIter_setChain (ms.map Prod.fst) initialAppState.nodesH hN
  have hundoE : (appUndoIter ms.length (applyMuts ms initialAppState)).edgesH
      = { past := [], present := [], future := ms.map Prod.snd } := by
    rw [(appUndoIter_proj ms.length _).2.1, applyMuts_edgesH, hlenE]
    exact undoIter_setChain (ms.map Prod.snd) initialAppState.edgesH hE
  have hrestN : (appRedoIter ms.length
        (appUndoIter ms.length (applyMuts ms initialAppState))).nodesH
      = (applyMuts ms initialAppState).nodesH := by
    rw [(appRedoIter_proj ms.length _).1, hundoN, hlenN, applyMuts_nodesH]
    exact redoIter_restore (ms.map Prod.fst) [] []
  have hrestE : (appRedoIter ms.length
        (appUndoIter ms.length (applyMuts ms initialAppState))).edgesH
      = (applyMuts ms initialAppState).edgesH := by
    rw [(appRedoIter_proj ms.length _).2.1, hundoE, hlenE, applyMuts_edgesH]
    exact redoIter_restore (ms.map Prod.snd) [] []
  have hpreRF : (applyMuts ms initialAppState).rfNodes
      = (applyMuts ms initialAppState).nodesH.present :=
    applyMuts_rfNodes ms initialAppState rfl
  have hundRF : (appUndoIter ms.length (applyMuts ms initialAppState)).rfNodes
      = (appUndoIter ms.length (applyMuts ms initialAppState)).nodesH.present :=
    appUndoIter_rfNodes ms.length _ hpreRF
  have hredRF : (appRedoIter ms.length
        (appUndoIter ms.length (applyMuts ms initialAppState))).rfNodes
      = (appRedoIter ms.length
          (appUndoIter ms.length (applyMuts ms initialAppState))).nodesH.present :=
    appRedoIter_rfNodes ms.length _ hundRF
  refine ⟨?_, ?_, ?_⟩
  · rw [hundoN]
  · rw [hundoE]
  · refine AppState.ext5 _ _ hrestN hrestE ?_ ?_ ?_
    · rw [hredRF, hrestN, hpreRF]
    · rw [(appRedoIter_proj ms.length _).2.2.1, (appUndoIter_proj ms.length _).2.2.1]
    · rw [(appRedoIter_proj ms.length _).2.2.2, (appUndoIter_proj ms.length _).2.2.2]

/-- Witness for C2 at a single concrete mutation. -/
theorem c2_history_lockstep_witness :
    ([([nodeA], [edgeAB])] : List (List Node × List Edge)) ≠ []
    ∧ ((appUndoIter 1 (applyMuts [([nodeA], [edgeAB])] initialAppState)).nodesH.present
          = ([] : List Node)
      ∧ (appUndoIter 1 (applyMuts [([nodeA], [edgeAB])] initialAppState)).edgesH.present
          = ([] : List Edge)
      ∧ appRedoIter 1 (appUndoIter 1 (applyMuts [([nodeA], [edgeAB])] initialAppState))
          = applyMuts [([nodeA], [edgeAB])] initialAppState) :=
  ⟨by decide, c2_history_lockstep [([nodeA], [edgeAB])] (by decide)⟩

/-- C3: the claim fails on the code.  Node-mutation intents issued from
`NodeComponent` (here: relabel) write through `useReactFlow().setNodes`
and never dispatch `set` on the node timeline, so after add-node then
relabel, the relabel leaves the node timeline unchanged, and the
application-level undo yields the empty node list rather than the
pre-relabel snapshot `[mkNewNode 0]`. -/
theorem c3_mutations_bypass_history :
    (relabelIntent (onAddNode 0 initialAppState) "node_0" "b").nodesH
        = (onAddNode 0 initialAppState).nodesH
    ∧ (onAddNode 0 initialAppState).rfNodes = [mkNewNode 0]
    ∧ (appUndo (relabelIntent (onAddNode 0 initialAppState) "node_0" "b")).rfNodes = []
    ∧ [mkNewNode 0] ≠ ([] : List Node) := by
  refine ⟨rfl, rfl, ?_, by decide⟩
  decide

/-- C4 counterexample: loading is undoable.  After adding a node and then
loading the empty document, the node present becomes empty, and a single
application-level undo restores exactly the pre-load node snapshot —
refuting the claim that undo does not restore the pre-load state. -/
theorem c4_load_is_undoable_cex :
    (loadFlow (onAddNode 0 initialAppState)
        { nodes := some [], edges := some [] }).nodesH.present = ([] : List Node)
    ∧ (appUndo (loadFlow (onAddNode 0 initialAppState)
        { nodes := some [], edges := some [] })).nodesH.present
        = (onAddNode 0 initialAppState).nodesH.present
    ∧ (onAddNode 0 initialAppState).nodesH.present ≠ ([] : List Node) := by
  refine ⟨rfl, ?_, by decide⟩
  decide

/-- C4 (amended): loading a document replaces the node and edge snapshots
through the history `set`, so it IS undoable: after a successful load,
one application-level undo restores both presents that held immediately
before the load. -/
theorem c4_load_undo_restores (st : AppState) (flow : Flow) :
    (appUndo (loadFlow st flow)).nodesH.present = st.nodesH.present
    ∧ (appUndo (loadFlow st flow)).edgesH.present = st.edgesH.present := by
  constructor
  · show ((st.nodesH.set (flow.nodes.getD [])).undo).present = st.nodesH.present
    rw [Timeline.undo_set]
  · show ((st.edgesH.set (flow.edges.getD [])).undo).present = st.edgesH.present
    rw [Timeline.undo_set]

/-- C5: for every input text, `onLoad` either fails to parse — surfacing
the invalid-data notice and leaving the entire application state,
histories included, unchanged — or installs the decoded document into
both stores with missing `nodes`/`edges` keys defaulting to `[]`. -/
theorem c5_onLoad_parse_or_install (parse : String → Option Flow)
    (flowData : String) (st : AppState) :
    (parse flowData = none → onLoad parse flowData st = (st, true))
    ∧ (∀ flow, parse flowData = some flow →
        onLoad parse flowData st = (loadFlow st flow, false)
        ∧ (loadFlow st flow).nodesH.present = flow.nodes.getD []
        ∧ (loadFlow st flow).edgesH.present = flow.edges.getD []) := by
  constructor
  · intro h
    simp [onLoad, h]
  · intro flow h
    exact ⟨by simp [onLoad, h], rfl, rfl⟩

/-- Witness for C5: a parser that fails, and one that succeeds with both
keys missing. -/
theorem c5_onLoad_parse_or_install_witness :
    onLoad (fun _ => none) "bad" initialAppState = (initialAppState, true)
    ∧ (onLoad (fun _ => some { nodes := none, edges := none }) "ok" initialAppState
        = (loadFlow initialAppState { nodes := none, edges := none }, false)
      ∧ (loadFlow initialAppState { nodes := none, edges := none }).nodesH.present
          = Option.getD none []
      ∧ (loadFlow initialAppState { nodes := none, edges := none }).edgesH.present
          = Option.getD none []) :=
  ⟨(c5_onLoad_parse_or_install (fun _ => none) "bad" initialAppState).1 rfl,
   (c5_onLoad_parse_or_install (fun _ => some { nodes := none, edges := none })
      "ok" initialAppState).2 { nodes := none, edges := none } rfl⟩

/-- C6: round-trip — deserializing the serialization of any in-memory
document yields the document back, all node and edge fields equal and in
order. -/
theorem c6_round_trip (d : Document) : deserializeDoc (serializeDoc d) = some d := by
  show deserializeDoc (Json.obj [("nodes", Json.arr (d.nodes.map encodeNode)),
    ("edges", Json.arr (d.edges.map encodeEdge))]) = some d
  rw [show deserializeDoc (Json.obj [("nodes", Json.arr (d.nodes.map encodeNode)),
      ("edges", Json.arr (d.edges.map encodeEdge))])
    = (match decodeListWith decodeNode (d.nodes.map encodeNode),
             decodeListWith decodeEdge (d.edges.map encodeEdge) with
       | some n2, some e2 => some { nodes := n2, edges := e2 }
       | _, _ => none) from rfl]
  rw [decodeListWith_map decodeNode encodeNode decodeNode_encodeNode]
  rw [decodeListWith_map decodeEdge encodeEdge decodeEdge_encodeEdge]

/-- C7: permissive connect.  Every connect intent — including one whose
source and target node coincide — appends exactly one edge with the
endpoints of the gesture, and two connect intents with identical endpoints
succeed both times, producing two edges with distinct ids. -/
theorem c7_permissive_connect (st : AppState) (conn : Connection) :
    (onConnect st conn).edgesH.present
        = st.edgesH.present ++ [mkEdgeModel conn st.connectionLineType st.nextEdgeId]
    ∧ (onConnect (onConnect st conn) conn).edgesH.present
        = st.edgesH.present
            ++ [mkEdgeModel conn st.connectionLineType st.nextEdgeId]
            ++ [mkEdgeModel conn st.connectionLineType (st.nextEdgeId + 1)]
    ∧ (mkEdgeModel conn st.connectionLineType st.nextEdgeId).source = conn.source
    ∧ (mkEdgeModel conn st.connectionLineType st.nextEdgeId).target = conn.target
    ∧ (mkEdgeModel conn st.connectionLineType (st.nextEdgeId + 1)).source = conn.source
    ∧ (mkEdgeModel conn st.connectionLineType (st.nextEdgeId + 1)).target = conn.target
    ∧ (mkEdgeModel conn st.connectionLineType st.nextEdgeId).id
        ≠ (mkEdgeModel conn st.connectionLineType (st.nextEdgeId + 1)).id := by
  refine ⟨rfl, rfl, rfl, rfl, rfl, rfl, ?_⟩
  intro h
  have : st.nextEdgeId = st.nextEdgeId + 1 := append_natToString_injective ("edge_") h
  omega

/-- C8: port id determinism.  For a node with `n` inputs, add-input
appends the port `input-n` named `Input n+1` (symmetrically for
outputs), and adding, immediately removing, then adding again yields a
port with the same id. -/
theorem c8_port_id_determinism (inputs outputs : List Port) :
    addInput inputs
      = inputs ++ [{ id := "input-" ++ natToString inputs.length,
                     name := "Input " ++ natToString (inputs.length + 1) }]
    ∧ addOutput outputs
      = outputs ++ [{ id := "output-" ++ natToString outputs.length,
                      name := "Output " ++ natToString (outputs.length + 1) }]
    ∧ addInput (removeInput (addInput inputs) inputs.length) = addInput inputs
    ∧ addOutput (removeOutput (addOutput outputs) outputs.length) = addOutput outputs := by
  refine ⟨rfl, rfl, ?_, ?_⟩
  · exact congrArg addInput (removeInput_append_last inputs
      { id := "input-" ++ natToString inputs.length,
        name := "Input " ++ natToString (inputs.length + 1) })
  · exact congrArg addOutput (removeOutput_append_last outputs
      { id := "output-" ++ natToString outputs.length,
        name := "Output " ++ natToString (outputs.length + 1) })

/-- C9: on a timeline, `set` pushes the present onto the past, installs
the new snapshot and clears the future; after `set, set, undo`, a
further `set` leaves the future empty, so a subsequent `redo` is a
no-op. -/
theorem c9_redo_branch_discard {α : Type} (t : Timeline α) (s1 s2 s3 : α) :
    t.set s1 = { past := t.past ++ [t.present], present := s1, future := [] }
    ∧ (((t.set s1).set s2).undo.set s3).future = []
    ∧ (((t.set s1).set s2).undo.set s3).redo = ((t.set s1).set s2).undo.set s3 :=
  ⟨rfl, rfl, rfl⟩

/-- C10 counterexample: two add-node intents fired at the same
millisecond timestamp create two nodes with the same id `node_0`. -/
theorem c10_id_collision_cex :
    (onAddNode 0 (onAddNode 0 initialAppState)).nodesH.present.map Node.id
      = ["node_0", "node_0"] := by
  decide

/-- C10 (amended): two nodes created by add-node intents with distinct
creation timestamps have distinct node ids. -/
theorem c10_distinct_timestamps (st : AppState) (t1 t2 : Nat) (h : t1 ≠ t2) :
    (onAddNode t2 (onAddNode t1 st)).nodesH.present
        = st.nodesH.present ++ [mkNewNode t1, mkNewNode t2]
    ∧ (mkNewNode t1).id ≠ (mkNewNode t2).id := by
  constructor
  · show (st.nodesH.present ++ [mkNewNode t1]) ++ [mkNewNode t2]
        = st.nodesH.present ++ [mkNewNode t1, mkNewNode t2]
    rw [List.append_assoc]
    rfl
  · intro hid
    exact h (append_natToString_injective ("node_") hid)

/-- Witness for the amended C10 claim at timestamps 0 and 1. -/
theorem c10_distinct_timestamps_witness :
    (0 : Nat) ≠ 1
    ∧ ((onAddNode 1 (onAddNode 0 initialAppState)).nodesH.present
          = initialAppState.nodesH.present ++ [mkNewNode 0, mkNewNode 1]
      ∧ (mkNewNode 0).id ≠ (mkNewNode 1).id) :=
  ⟨by decide, c10_distinct_timestamps initialAppState 0 1 (by decide)⟩

end FDiag
